import Mathlib

/-!
Verification development for the `license-scanner` repository (Go).

Go strings are modelled as `List Char` (`GoStr`).  Go `float64` confidence
values are modelled as rationals: every literal occurring in the source
(`0.0`, `0.2`, `0.5`, `0.8`, `0.9`, `1.0`) and every comparison against them
is exact in IEEE double precision, so the rational model is faithful.
Go maps are modelled as association lists; a `range` loop over a Go map has
an unspecified iteration order, which is modelled by an explicit `order`
parameter ranging over the permutations of the key set.
-/

namespace LicenseScanner

/-- Go strings, modelled as lists of characters. -/
abbrev GoStr := List Char

/-- Conversion from Lean string literals. -/
def gs (s : String) : GoStr := s.data

/-- The character set accepted by the Go function `unicode.IsSpace` (White_Space property plus the
Latin-1 fast path). -/
def goIsSpace (c : Char) : Bool :=
  c = ' ' || c = '\t' || c = '\n' || (c.toNat = 11) || (c.toNat = 12) ||
  c = '\r' || c.toNat = 0x85 || c.toNat = 0xA0 || c.toNat = 0x1680 ||
  (0x2000 ≤ c.toNat && c.toNat ≤ 0x200A) || c.toNat = 0x2028 ||
  c.toNat = 0x2029 || c.toNat = 0x202F || c.toNat = 0x205F || c.toNat = 0x3000

/-- Go `strings.TrimSpace`: drop leading and trailing whitespace. -/
def trimSpace (s : GoStr) : GoStr :=
  ((s.dropWhile goIsSpace).reverse.dropWhile goIsSpace).reverse

/-- Go `unicode.ToLower` restricted to ASCII.  Every character that the source lookup tables and branch conditions inspect is ASCII, where this agrees with
Go. -/
def goToLowerChar (c : Char) : Char :=
  if 'A' ≤ c ∧ c ≤ 'Z' then Char.ofNat (c.toNat + 32) else c

/-- Go `strings.ToLower` (ASCII fragment, see `goToLowerChar`). -/
def toLowerStr (s : GoStr) : GoStr := s.map goToLowerChar

/-- Go `strings.Contains`: `sub` occurs as a contiguous substring of `s`. -/
def containsSub : GoStr → GoStr → Bool
  | [], sub => sub.isEmpty
  | c :: rest, sub => sub.isPrefixOf (c :: rest) || containsSub rest sub

/-- Go `strings.ReplaceAll(s, " ", "-")`, specialised to the only call in the
source: every space becomes a dash. -/
def replaceSpaceDash (s : GoStr) : GoStr :=
  s.map fun c => if c = ' ' then '-' else c

/-- The apostrophe character (U+0027), used inside source string constants. -/
def squote : Char := Char.ofNat 39

/- ===================  internal/analyzer/analyzer.go  =================== -/

/-- `analyzer.LicenseCategory`. -/
inductive LicenseCategory where
  | permissive
  | weakCopyleft
  | strongCopyleft
  | proprietary
  | unknownCategory
deriving DecidableEq, Repr

/-- `analyzer.LicenseInfo` (category table entry). -/
structure ALicenseInfo where
  name : GoStr
  category : LicenseCategory
  riskLevel : GoStr
deriving DecidableEq, Repr

/-- `analyzer.KnownLicenses`, as the list of the (distinct) keyed entries
of the Go map; the map is only ever used for keyed lookup, for which the listing
order is irrelevant. -/
def KnownLicenses : List (GoStr × ALicenseInfo) :=
  [ (gs "MIT", ⟨gs "MIT", .permissive, gs "low"⟩),
    (gs "ISC", ⟨gs "ISC", .permissive, gs "low"⟩),
    (gs "BSD-2-Clause", ⟨gs "BSD-2-Clause", .permissive, gs "low"⟩),
    (gs "BSD-3-Clause", ⟨gs "BSD-3-Clause", .permissive, gs "low"⟩),
    (gs "Apache-2.0", ⟨gs "Apache-2.0", .permissive, gs "low"⟩),
    (gs "Apache 2.0", ⟨gs "Apache-2.0", .permissive, gs "low"⟩),
    (gs "MPL-2.0", ⟨gs "MPL-2.0", .weakCopyleft, gs "medium"⟩),
    (gs "LGPL-2.1", ⟨gs "LGPL-2.1", .weakCopyleft, gs "medium"⟩),
    (gs "LGPL-3.0", ⟨gs "LGPL-3.0", .weakCopyleft, gs "medium"⟩),
    (gs "GPL-2.0", ⟨gs "GPL-2.0", .strongCopyleft, gs "high"⟩),
    (gs "GPL-3.0", ⟨gs "GPL-3.0", .strongCopyleft, gs "high"⟩),
    (gs "AGPL-3.0", ⟨gs "AGPL-3.0", .strongCopyleft, gs "high"⟩),
    (gs "UNLICENSED", ⟨gs "UNLICENSED", .proprietary, gs "high"⟩) ]

/-- Keyed lookup in a Go map modelled as an association list
(`info, known := KnownLicenses[license]` style access). -/
def lookupTable (table : List (GoStr × ALicenseInfo)) (k : GoStr) :
    Option ALicenseInfo :=
  match table with
  | [] => none
  | (k', v) :: rest => if k' = k then some v else lookupTable rest k

/-- `analyzer.Dependency`. -/
structure ADependency where
  name : GoStr
  version : GoStr
  license : GoStr
  confidence : ℚ
deriving DecidableEq, Repr

/-- `analyzer.normalizeLicense`. -/
def normalizeLicense (license : GoStr) : GoStr :=
  let normalized := trimSpace license
  let lower := toLowerStr normalized
  if containsSub lower (gs "apache") then gs "Apache-2.0"
  else if containsSub lower (gs "agpl") then gs "AGPL-3.0"
  else if containsSub lower (gs "lgpl") && containsSub lower (gs "3") then gs "LGPL-3.0"
  else if containsSub lower (gs "lgpl") && containsSub lower (gs "2") then gs "LGPL-2.1"
  else if containsSub lower (gs "gpl") && containsSub lower (gs "3") then gs "GPL-3.0"
  else if containsSub lower (gs "gpl") && containsSub lower (gs "2") then gs "GPL-2.0"
  else normalized

/-- `result.LicenseCounts[license]++` on the association-list model of the
Go map: bump the entry if the key is present, otherwise append it with
count 1. -/
def mapInc (m : List (GoStr × Nat)) (k : GoStr) : List (GoStr × Nat) :=
  match m with
  | [] => [(k, 1)]
  | (k', v) :: rest => if k' = k then (k', v + 1) :: rest else (k', v) :: mapInc rest k

/-- Go map read `m[k]` (zero value 0 for an absent key). -/
def lookupCount (m : List (GoStr × Nat)) (k : GoStr) : Nat :=
  match m with
  | [] => 0
  | (k', v) :: rest => if k' = k then v else lookupCount rest k

/-- Go comma-ok map read `v, ok := m[k]`. -/
def lookupCountOk (m : List (GoStr × Nat)) (k : GoStr) : Option Nat :=
  match m with
  | [] => none
  | (k', v) :: rest => if k' = k then some v else lookupCountOk rest k

/-- The mutable locals of the `Analyze` loop. -/
structure ATallies where
  licenseCounts : List (GoStr × Nat)
  permissiveCount : Nat
  weakCopyleftCount : Nat
  strongCopyleftCount : Nat
  unknownCount : Nat
  lowConfidenceCount : Nat
  hasLGPL : Bool
  hasMPL : Bool
deriving Repr

/-- Initial state of the `Analyze` loop locals. -/
def initTallies : ATallies :=
  ⟨[], 0, 0, 0, 0, 0, false, false⟩

/-- One iteration of the `for _, dep := range dependencies` loop body of
`analyzer.Analyze`. -/
def analyzeStep (st : ATallies) (dep : ADependency) : ATallies :=
  let license := normalizeLicense dep.license
  let st := { st with licenseCounts := mapInc st.licenseCounts license }
  match lookupTable KnownLicenses license with
  | none =>
    if license ≠ gs "Unknown" then { st with unknownCount := st.unknownCount + 1 }
    else st
  | some info =>
    let st :=
      if dep.confidence < mkRat 1 2 then
        { st with lowConfidenceCount := st.lowConfidenceCount + 1 }
      else st
    match info.category with
    | .permissive => { st with permissiveCount := st.permissiveCount + 1 }
    | .weakCopyleft =>
      let st := { st with weakCopyleftCount := st.weakCopyleftCount + 1 }
      let st :=
        if license = gs "LGPL-2.1" ∨ license = gs "LGPL-3.0" then
          { st with hasLGPL := true }
        else st
      if license = gs "MPL-2.0" then { st with hasMPL := true } else st
    | .strongCopyleft => { st with strongCopyleftCount := st.strongCopyleftCount + 1 }
    | .proprietary => st
    | .unknownCategory => st

/-- The `Analyze` loop over the dependency list. -/
def analyzeLoop : List ADependency → ATallies → ATallies
  | [], st => st
  | dep :: rest, st => analyzeLoop rest (analyzeStep st dep)

/-- The loop locals after the `Analyze` loop has run from the initial state. -/
def analyzeState (dependencies : List ADependency) : ATallies :=
  analyzeLoop dependencies initTallies

/-- The unknown tally actually fed into the risk-level calculation: the loop
tally, overwritten by the count under the "Unknown" key of `licenseCounts`
whenever that key exists (`analyzer.go` lines 117-120). -/
def unknownCountUsed (dependencies : List ADependency) : Nat :=
  match lookupCountOk (analyzeState dependencies).licenseCounts (gs "Unknown") with
  | some count => count
  | none => (analyzeState dependencies).unknownCount

/-- `analyzer.calculateRiskLevel`. -/
def calculateRiskLevel (strongCopyleft weakCopyleft unknown lowConfidence : Nat) :
    GoStr :=
  if strongCopyleft > 0 || unknown > 5 then gs "high"
  else if weakCopyleft > 0 || unknown > 0 || lowConfidence > 3 then gs "medium"
  else gs "low"

/-- The AGPL conflict string of `analyzer.detectConflicts`. -/
def agplConflictMessage : GoStr :=
  gs "AGPL-3.0 requires source disclosure for network use - ensure compliance"

/-- The GPL-2.0/Apache-2.0 conflict string of `analyzer.detectConflicts`. -/
def gplApacheConflictMessage : GoStr :=
  gs "GPL-2.0 and Apache-2.0 licenses are incompatible"

/-- The GPL-2.0/GPL-3.0 conflict string of `analyzer.detectConflicts`
(the apostrophes around the or-later phrase are assembled explicitly). -/
def gplVersionConflictMessage : GoStr :=
  gs "GPL-2.0 and GPL-3.0 detected - verify " ++ [squote] ++ gs "or later" ++
    [squote] ++ gs " clauses for compatibility"

/-- `analyzer.detectConflicts`. -/
def detectConflicts (licenseCounts : List (GoStr × Nat)) : List GoStr :=
  let conflicts : List GoStr := []
  let hasGPL2 := lookupCount licenseCounts (gs "GPL-2.0") > 0
  let hasGPL3 := lookupCount licenseCounts (gs "GPL-3.0") > 0
  let hasAGPL := lookupCount licenseCounts (gs "AGPL-3.0") > 0
  let hasApache := lookupCount licenseCounts (gs "Apache-2.0") > 0 ||
    lookupCount licenseCounts (gs "Apache 2.0") > 0
  let conflicts := if hasAGPL then conflicts ++ [agplConflictMessage] else conflicts
  let conflicts :=
    if hasGPL2 && hasApache then conflicts ++ [gplApacheConflictMessage] else conflicts
  let conflicts :=
    if hasGPL2 && hasGPL3 then conflicts ++ [gplVersionConflictMessage] else conflicts
  conflicts

/-- Decimal rendering of a count, as Go `fmt.Sprintf` renders `%d` for the
non-negative counters of the analyzer. -/
def natStr (n : Nat) : GoStr := (Nat.repr n).data

/-- The all-clear recommendation string of
`analyzer.generateRecommendations`. -/
def allClearMessage : GoStr :=
  gs "✓ All licenses are permissive and compatible - no compliance issues detected"

/-- The low-confidence recommendation string (`fmt.Sprintf` applied). -/
def lowConfidenceMessage (lowConfidence : Nat) : GoStr :=
  gs "⚠️  " ++ natStr lowConfidence ++
    gs " dependencies have low-confidence license detection - verify manually"

/-- `analyzer.generateRecommendations`. -/
def generateRecommendations (permissive weakCopyleft strongCopyleft unknown lowConfidence : Nat)
    (hasConflicts hasLGPL hasMPL : Bool) : List GoStr :=
  let recommendations : List GoStr := []
  let recommendations :=
    if hasConflicts then
      recommendations ++
        [gs "⚠️  License conflicts detected - review dependencies for compatibility issues"]
    else recommendations
  let recommendations :=
    if strongCopyleft > 0 then
      (recommendations ++
        [gs "⚠️  Found " ++ natStr strongCopyleft ++
          gs " GPL/AGPL dependencies - ensure compliance with copyleft requirements"]) ++
        [gs "📋 Consider legal review if distributing proprietary software"]
    else recommendations
  let recommendations :=
    if weakCopyleft > 0 && (hasLGPL || hasMPL) then
      recommendations ++
        [gs "ℹ️  Found " ++ natStr weakCopyleft ++
          gs " LGPL/MPL dependencies - these allow proprietary use with conditions"]
    else recommendations
  let recommendations :=
    if unknown > 0 then
      (recommendations ++
        [gs "⚠️  " ++ natStr unknown ++
          gs " dependencies have unknown licenses - manual review required"]) ++
        [gs "🔍 Check package repositories or contact maintainers for license clarification"]
    else recommendations
  let recommendations :=
    if lowConfidence > 0 then recommendations ++ [lowConfidenceMessage lowConfidence]
    else recommendations
  if recommendations.length = 0 then recommendations ++ [allClearMessage]
  else recommendations

/-- `analyzer.AnalysisResult`. -/
structure AnalysisResult where
  riskLevel : GoStr
  conflicts : List GoStr
  recommendations : List GoStr
  licenseCounts : List (GoStr × Nat)
deriving Repr

/-- `analyzer.Analyze` (the `Analyzer` receiver is stateless and omitted). -/
def Analyze (dependencies : List ADependency) : AnalysisResult :=
  let st := analyzeState dependencies
  let unknownCount := unknownCountUsed dependencies
  let riskLevel :=
    calculateRiskLevel st.strongCopyleftCount st.weakCopyleftCount unknownCount
      st.lowConfidenceCount
  let conflicts := detectConflicts st.licenseCounts
  let recommendations :=
    generateRecommendations st.permissiveCount st.weakCopyleftCount st.strongCopyleftCount
      unknownCount st.lowConfidenceCount (conflicts.length > 0) st.hasLGPL st.hasMPL
  ⟨riskLevel, conflicts, recommendations, st.licenseCounts⟩

/- ===================  internal/detector/detector.go  =================== -/

/-- `detector.normalizedLicense`: trim, empty check, spaces to dashes, then
a synonym switch on the lower-cased form; unmatched strings pass through
with only the dash replacement applied. -/
def normalizedLicense (license : GoStr) : GoStr :=
  let license := trimSpace license
  if license.isEmpty then []
  else
    let license := replaceSpaceDash license
    let lower := toLowerStr license
    if lower = gs "mit" then gs "MIT"
    else if lower = gs "apache-2.0" ∨ lower = gs "apache2" ∨ lower = gs "apache-v2" then
      gs "Apache-2.0"
    else if lower = gs "gpl-3.0" ∨ lower = gs "gplv3" ∨ lower = gs "gpl3" then gs "GPL-3.0"
    else if lower = gs "gpl-2.0" ∨ lower = gs "gplv2" ∨ lower = gs "gpl2" then gs "GPL-2.0"
    else if lower = gs "bsd-3-clause" ∨ lower = gs "bsd3" then gs "BSD-3-Clause"
    else if lower = gs "bsd-2-clause" ∨ lower = gs "bsd2" then gs "BSD-2-Clause"
    else if lower = gs "isc" then gs "ISC"
    else license

/- =====================  internal/parser/parser.go  ===================== -/

/-- `parser.Dependency`. -/
structure PDependency where
  name : GoStr
  version : GoStr
  license : GoStr
deriving DecidableEq, Repr

/-- Two-segment `filepath.Join` as used by the parser, detector and the
mock filesystems of the repository (which join with "/"). -/
def joinPath (a b : GoStr) : GoStr := a ++ ('/' :: b)

/-- The `lockFiles` Go map literal of `parser.DetectLockFile`, keyed by
lock filename. -/
def lockFiles : List (GoStr × GoStr) :=
  [ (gs "package-lock.json", gs "npm"),
    (gs "yarn.lock", gs "yarn"),
    (gs "pnpm-lock.yaml", gs "pnpm") ]

/-- Keyed lookup in the `lockFiles` map. -/
def lookupStr (m : List (GoStr × GoStr)) (k : GoStr) : GoStr :=
  match m with
  | [] => []
  | (k', v) :: rest => if k' = k then v else lookupStr rest k

/-- `parser.DetectLockFile`.  The Go statement
`for filename, packageManager := range lockFiles` ranges over a map, whose
iteration order is unspecified; `order` is that iteration order (admissible
executions are the permutations of the key set of the map).  `statOk path`
models `fs.Stat(path)` succeeding; the `none` result models the
`os.ErrNotExist` return. -/
def DetectLockFile (order : List GoStr) (statOk : GoStr → Bool) (rootPath : GoStr) :
    Option (GoStr × GoStr) :=
  match order with
  | [] => none
  | filename :: rest =>
    let lockFilePath := joinPath rootPath filename
    if statOk lockFilePath then some (lockFilePath, lookupStr lockFiles filename)
    else DetectLockFile rest statOk rootPath

/-- `strings.Split` on a single-character separator, with the Go semantics
(`Split("", sep) = [""]`, separators delimit possibly-empty fields). -/
def splitOnChar (sep : Char) : GoStr → List GoStr
  | [] => [[]]
  | c :: rest =>
    if c = sep then [] :: splitOnChar sep rest
    else
      match splitOnChar sep rest with
      | [] => [[c]]
      | s :: ss => (c :: s) :: ss

/-- `parser.NPMPackage`. -/
structure NPMPackage where
  version : GoStr
  license : GoStr
deriving DecidableEq, Repr

/-- `parser.extractPackageName`.  The scoped-package branch falls through
to the regular handling when the split yields fewer than two parts, which
is modelled by the intermediate option. -/
def extractPackageName (packagePath : GoStr) : GoStr :=
  if (gs "node_modules/").isPrefixOf packagePath then
    let name := packagePath.drop (gs "node_modules/").length
    let scopedResult :=
      match name with
      | c :: _ =>
        if c = '@' then
          match splitOnChar '/' name with
          | p0 :: p1 :: _ => some (p0 ++ ('/' :: p1))
          | _ => none
        else none
      | [] => none
    match scopedResult with
    | some result => result
    | none =>
      match splitOnChar '/' name with
      | p0 :: _ => p0
      | [] => name
  else []

/-- The `packages`-section loop of `parser.NPMParser.Parse`: skip the root
entry (empty key) and entries whose extracted name is empty; every other
entry yields a `Dependency` verbatim.  The iteration order of the map is
the listing order of the association list. -/
def parsePackagesSection : List (GoStr × NPMPackage) → List PDependency
  | [] => []
  | (packagePath, pkg) :: rest =>
    if packagePath = [] then parsePackagesSection rest
    else
      let name := extractPackageName packagePath
      if name = [] then parsePackagesSection rest
      else ⟨name, pkg.version, pkg.license⟩ :: parsePackagesSection rest

/- =============  regular expressions (Go regexp, RE2 subset)  ============= -/

/-- Regular-expression syntax covering the seven license patterns of
`detector.analyzeLicenseFile`: literals, `.` (any character except
newline), character classes (`\s`), alternation, concatenation and
Kleene star (`x+` is encoded as `x · x*`). -/
inductive Rx where
  | emp
  | eps
  | chr (c : Char)
  | anyc
  | cls (s : List Char)
  | alt (a b : Rx)
  | cat (a b : Rx)
  | star (a : Rx)
deriving DecidableEq, Repr

/-- The regex accepts the empty string. -/
def Rx.nullable : Rx → Bool
  | .emp => false
  | .eps => true
  | .chr _ => false
  | .anyc => false
  | .cls _ => false
  | .alt a b => a.nullable || b.nullable
  | .cat a b => a.nullable && b.nullable
  | .star _ => true

/-- Smart alternation (keeps derivatives small). -/
def Rx.altS : Rx → Rx → Rx
  | .emp, b => b
  | a, .emp => a
  | a, b => .alt a b

/-- Smart concatenation (keeps derivatives small). -/
def Rx.catS : Rx → Rx → Rx
  | .emp, _ => .emp
  | _, .emp => .emp
  | .eps, b => b
  | a, .eps => a
  | a, b => .cat a b

/-- Brzozowski derivative. -/
def Rx.deriv : Rx → Char → Rx
  | .emp, _ => .emp
  | .eps, _ => .emp
  | .chr c, a => if a = c then .eps else .emp
  | .anyc, a => if a = '\n' then .emp else .eps
  | .cls s, a => if s.contains a then .eps else .emp
  | .alt r₁ r₂, a => altS (r₁.deriv a) (r₂.deriv a)
  | .cat r₁ r₂, a =>
    if r₁.nullable then altS (catS (r₁.deriv a) r₂) (r₂.deriv a)
    else catS (r₁.deriv a) r₂
  | .star r, a => catS (r.deriv a) (.star r)

/-- The regex accepts some leading segment of the string. -/
def rxAcceptsLead : Rx → GoStr → Bool
  | r, [] => r.nullable
  | r, c :: cs => r.nullable || rxAcceptsLead (r.deriv c) cs

/-- Go `Regexp.MatchString`: some substring of the string matches
(unanchored search). -/
def rxSearch (r : Rx) : GoStr → Bool
  | [] => r.nullable
  | c :: cs => rxAcceptsLead r (c :: cs) || rxSearch r cs

/-- Literal regex for a string. -/
def rxLit : GoStr → Rx
  | [] => .eps
  | c :: rest => .cat (.chr c) (rxLit rest)

/-- Sequential composition of a pattern list. -/
def rxSeq (l : List Rx) : Rx := l.foldr Rx.cat .eps

/-- RE2 `\s` = `[\t\n\f\r ]`. -/
def rxWS : Rx := .cls ['\t', '\n', Char.ofNat 12, '\r', ' ']

/-- `x+` as `x · x*`. -/
def rxPlus (r : Rx) : Rx := .cat r (.star r)

/-- `\s+`. -/
def rxWSP : Rx := rxPlus rxWS

/-- `.*`. -/
def rxDotStar : Rx := .star .anyc

/-- `mit\s+license|permission\s+is\s+hereby\s+granted.*free\s+of\s+charge` -/
def mitRx : Rx :=
  .alt (rxSeq [rxLit (gs "mit"), rxWSP, rxLit (gs "license")])
    (rxSeq [rxLit (gs "permission"), rxWSP, rxLit (gs "is"), rxWSP, rxLit (gs "hereby"),
      rxWSP, rxLit (gs "granted"), rxDotStar, rxLit (gs "free"), rxWSP, rxLit (gs "of"),
      rxWSP, rxLit (gs "charge")])

/-- `apache\s+license.*version\s+2\.0|licensed\s+under\s+the\s+apache\s+license|apache\s+license.*version\s+2.*january.*2004` -/
def apacheRx : Rx :=
  .alt
    (rxSeq [rxLit (gs "apache"), rxWSP, rxLit (gs "license"), rxDotStar,
      rxLit (gs "version"), rxWSP, rxLit (gs "2.0")])
    (.alt
      (rxSeq [rxLit (gs "licensed"), rxWSP, rxLit (gs "under"), rxWSP, rxLit (gs "the"),
        rxWSP, rxLit (gs "apache"), rxWSP, rxLit (gs "license")])
      (rxSeq [rxLit (gs "apache"), rxWSP, rxLit (gs "license"), rxDotStar,
        rxLit (gs "version"), rxWSP, rxLit (gs "2"), rxDotStar, rxLit (gs "january"),
        rxDotStar, rxLit (gs "2004")]))

/-- `gnu\s+general\s+public\s+license.*version\s+3|gplv3|version\s+3.*june\s+2007` -/
def gpl3Rx : Rx :=
  .alt
    (rxSeq [rxLit (gs "gnu"), rxWSP, rxLit (gs "general"), rxWSP, rxLit (gs "public"),
      rxWSP, rxLit (gs "license"), rxDotStar, rxLit (gs "version"), rxWSP, rxLit (gs "3")])
    (.alt (rxLit (gs "gplv3"))
      (rxSeq [rxLit (gs "version"), rxWSP, rxLit (gs "3"), rxDotStar, rxLit (gs "june"),
        rxWSP, rxLit (gs "2007")]))

/-- `gnu\s+general\s+public\s+license.*version\s+2|gplv2` -/
def gpl2Rx : Rx :=
  .alt
    (rxSeq [rxLit (gs "gnu"), rxWSP, rxLit (gs "general"), rxWSP, rxLit (gs "public"),
      rxWSP, rxLit (gs "license"), rxDotStar, rxLit (gs "version"), rxWSP, rxLit (gs "2")])
    (rxLit (gs "gplv2"))

/-- `bsd.*3.*clause|redistribution\s+and\s+use.*binary\s+forms.*conditions` -/
def bsd3Rx : Rx :=
  .alt (rxSeq [rxLit (gs "bsd"), rxDotStar, rxLit (gs "3"), rxDotStar, rxLit (gs "clause")])
    (rxSeq [rxLit (gs "redistribution"), rxWSP, rxLit (gs "and"), rxWSP, rxLit (gs "use"),
      rxDotStar, rxLit (gs "binary"), rxWSP, rxLit (gs "forms"), rxDotStar,
      rxLit (gs "conditions")])

/-- `bsd.*2.*clause` -/
def bsd2Rx : Rx :=
  rxSeq [rxLit (gs "bsd"), rxDotStar, rxLit (gs "2"), rxDotStar, rxLit (gs "clause")]

/-- `isc\s+license|permission\s+to\s+use.*copy.*modify.*distribute` -/
def iscRx : Rx :=
  .alt (rxSeq [rxLit (gs "isc"), rxWSP, rxLit (gs "license")])
    (rxSeq [rxLit (gs "permission"), rxWSP, rxLit (gs "to"), rxWSP, rxLit (gs "use"),
      rxDotStar, rxLit (gs "copy"), rxDotStar, rxLit (gs "modify"), rxDotStar,
      rxLit (gs "distribute")])

/-- One entry of the pattern table of `detector.analyzeLicenseFile`. -/
structure PatternInfo where
  pattern : Rx
  confidence : ℚ
deriving DecidableEq, Repr

/-- The `patterns` Go map literal of `detector.analyzeLicenseFile`, keyed
by license id, listed in source order. -/
def licensePatterns : List (GoStr × PatternInfo) :=
  [ (gs "MIT", ⟨mitRx, mkRat 9 10⟩),
    (gs "Apache-2.0", ⟨apacheRx, mkRat 9 10⟩),
    (gs "GPL-3.0", ⟨gpl3Rx, mkRat 9 10⟩),
    (gs "GPL-2.0", ⟨gpl2Rx, mkRat 9 10⟩),
    (gs "BSD-3-Clause", ⟨bsd3Rx, mkRat 4 5⟩),
    (gs "BSD-2-Clause", ⟨bsd2Rx, mkRat 4 5⟩),
    (gs "ISC", ⟨iscRx, mkRat 4 5⟩) ]

/-- Keyed lookup in the pattern map. -/
def lookupPatternInfo (m : List (GoStr × PatternInfo)) (k : GoStr) : Option PatternInfo :=
  match m with
  | [] => none
  | (k', v) :: rest => if k' = k then some v else lookupPatternInfo rest k

/- ===================  internal/detector/detector.go  =================== -/

/-- The `for license, info := range patterns` loop of
`detector.analyzeLicenseFile`; `order` is the (unspecified) map iteration
order over the pattern keys. -/
def analyzeLicenseFileLoop (order : List GoStr) (content : GoStr) : GoStr × ℚ :=
  match order with
  | [] => (gs "Unknown", mkRat 1 5)
  | license :: rest =>
    match lookupPatternInfo licensePatterns license with
    | some info =>
      if rxSearch info.pattern content then (license, info.confidence)
      else analyzeLicenseFileLoop rest content
    | none => analyzeLicenseFileLoop rest content

/-- `detector.analyzeLicenseFile`: open/read errors degrade to
Unknown/0.2; otherwise lower-case the content and run the pattern loop.
`openRead` models `Open` + `ReadAll` (`none` is any I/O error). -/
def analyzeLicenseFile (order : List GoStr) (openRead : GoStr → Option GoStr)
    (licensePath : GoStr) : GoStr × ℚ :=
  match openRead licensePath with
  | none => (gs "Unknown", mkRat 1 5)
  | some data => analyzeLicenseFileLoop order (toLowerStr data)

/-- The shapes a `package.json` `license` field can decode to
(`interface%x7b%x7d` in Go: string, object with optional `type` string, array,
or anything else). -/
inductive LicenseField where
  | str (s : GoStr)
  | obj (typeField : Option GoStr)
  | arr (elems : List LicenseField)
  | other
deriving Repr

/-- `detector.extractLicenseFromField` (the Go nil/unknown-type default
branch returns the empty string). -/
def extractLicenseFromField : LicenseField → GoStr
  | .str v => normalizedLicense v
  | .obj (some typeVal) => normalizedLicense typeVal
  | .obj none => []
  | .arr (v0 :: _) =>
    let firstLicense := extractLicenseFromField v0
    if firstLicense ≠ [] then firstLicense else []
  | .arr [] => []
  | .other => []

/-- The filesystem-and-JSON environment a `Detector` runs against:
`openRead` is `Open`+`ReadAll` (`none` = I/O error), `statFile` is `Stat`
(`some isDir` on success, `none` = error), `unmarshalLicense` is
`json.Unmarshal` restricted to the `license` field (`none` = parse error,
`some none` = field absent or null), and `patternOrder` is the map
iteration order used by `analyzeLicenseFile`. -/
structure DetectorFS where
  openRead : GoStr → Option GoStr
  statFile : GoStr → Option Bool
  unmarshalLicense : GoStr → Option (Option LicenseField)
  patternOrder : List GoStr

/-- `detector.LicenseInfo`. -/
structure DLicenseInfo where
  license : GoStr
  confidence : ℚ
  source : GoStr
deriving DecidableEq, Repr

/-- `detector.detectFromPackageJSON`: every failure (open, read,
unmarshal, empty extracted license) returns nil. -/
def detectFromPackageJSON (fs : DetectorFS) (packagePath : GoStr) : Option DLicenseInfo :=
  let packageJSONPath := joinPath packagePath (gs "package.json")
  match fs.openRead packageJSONPath with
  | none => none
  | some data =>
    match fs.unmarshalLicense data with
    | none => none
    | some licenseField =>
      let license :=
        match licenseField with
        | some f => extractLicenseFromField f
        | none => []
      if license ≠ [] then some ⟨license, 1, gs "package.json"⟩
      else none

/-- `constants.LicenseFileVariants`. -/
def licenseFileVariants : List GoStr :=
  [gs "LICENSE", gs "LICENSE.txt", gs "LICENSE.md",
   gs "LICENCE", gs "LICENCE.txt", gs "LICENCE.md"]

/-- The variant loop of `detector.detectFromLicenseFile`: the first
variant that stats successfully as a regular file is analyzed; stat
errors fall through to the next variant. -/
def detectFromLicenseFileLoop (fs : DetectorFS) (packagePath : GoStr) :
    List GoStr → Option DLicenseInfo
  | [] => none
  | filename :: rest =>
    let licensePath := joinPath packagePath filename
    match fs.statFile licensePath with
    | some isDir =>
      if !isDir then
        let r := analyzeLicenseFile fs.patternOrder fs.openRead licensePath
        some ⟨r.1, r.2, gs "LICENSE file"⟩
      else detectFromLicenseFileLoop fs packagePath rest
    | none => detectFromLicenseFileLoop fs packagePath rest

/-- `detector.detectFromLicenseFile`. -/
def detectFromLicenseFile (fs : DetectorFS) (packagePath : GoStr) : Option DLicenseInfo :=
  detectFromLicenseFileLoop fs packagePath licenseFileVariants

/-- `detector.DetectLicense`: package.json first, then LICENSE files,
then the Unknown/0.0/"not found" default.  The second component is the
returned Go `error`, which is nil on every path. -/
def DetectLicense (fs : DetectorFS) (packagePath : GoStr) : DLicenseInfo × Option GoStr :=
  match detectFromPackageJSON fs packagePath with
  | some info => (info, none)
  | none =>
    match detectFromLicenseFile fs packagePath with
    | some info => (info, none)
    | none => (⟨gs "Unknown", 0, gs "not found"⟩, none)

/-- A filesystem on which every operation fails. -/
def emptyDetectorFS : DetectorFS :=
  ⟨fun _ => none, fun _ => none, fun _ => none, licensePatterns.map Prod.fst⟩

/-- A filesystem whose only file is a LICENSE text matching both the MIT
and the ISC pattern. -/
def mitIscContent : GoStr := gs "MIT License and ISC License"

/-- The key listing order of the patterns map literal. -/
def sourcePatternOrder : List GoStr := licensePatterns.map Prod.fst

/-- An iteration order of the patterns map that visits ISC first. -/
def iscFirstPatternOrder : List GoStr :=
  [gs "ISC", gs "MIT", gs "Apache-2.0", gs "GPL-3.0", gs "GPL-2.0",
   gs "BSD-3-Clause", gs "BSD-2-Clause"]

/-- A project root "/test" in which both package-lock.json and yarn.lock
exist (the situation of the in-repository test case named multiple lock
files - npm takes precedence). -/
def bothLockFS : GoStr → Bool := fun path =>
  path = gs "/test/package-lock.json" || path = gs "/test/yarn.lock"

/-- A package directory whose only usable license source is a LICENSE
file whose text matches none of the seven patterns. -/
def unknownLicenseFS : DetectorFS :=
  ⟨fun _ => some (gs "some totally custom text"),
   fun path => if path = gs "/pkg/LICENSE" then some false else none,
   fun _ => none,
   sourcePatternOrder⟩

/- ================  analyzer: characterisation lemmas  ================ -/

/-- Category of a (normalized) license id under the static table. -/
def categoryOf (license : GoStr) : Option LicenseCategory :=
  (lookupTable KnownLicenses license).map (·.category)

/-- The normalized license of the dependency is classified `Permissive`. -/
def isPermissiveDep (d : ADependency) : Bool :=
  categoryOf (normalizeLicense d.license) = some .permissive

/-- The normalized license of the dependency is classified `WeakCopyleft`. -/
def isWeakCopyleftDep (d : ADependency) : Bool :=
  categoryOf (normalizeLicense d.license) = some .weakCopyleft

/-- The normalized license of the dependency is classified `StrongCopyleft`. -/
def isStrongCopyleftDep (d : ADependency) : Bool :=
  categoryOf (normalizeLicense d.license) = some .strongCopyleft

/-- The normalized license of the dependency is absent from the category table
and is not the literal string "Unknown". -/
def isUnknownDep (d : ADependency) : Bool :=
  (lookupTable KnownLicenses (normalizeLicense d.license)).isNone &&
    normalizeLicense d.license ≠ gs "Unknown"

/-- The normalized license of the dependency is in the category table and its
confidence is below 0.5. -/
def isLowConfKnownDep (d : ADependency) : Bool :=
  (lookupTable KnownLicenses (normalizeLicense d.license)).isSome &&
    d.confidence < mkRat 1 2

/-- The multiset of normalized licenses of a dependency list. -/
def norms (dependencies : List ADependency) : List GoStr :=
  dependencies.map fun d => normalizeLicense d.license

/-- Total of all counts stored in a Go map modelled as an association
list. -/
def sumValues (m : List (GoStr × Nat)) : Nat := (m.map Prod.snd).sum

/-- The normalized license of the dependency is LGPL-2.1 or LGPL-3.0 (and hence
classified `WeakCopyleft`). -/
def isLGPLDep (d : ADependency) : Bool :=
  categoryOf (normalizeLicense d.license) = some .weakCopyleft &&
    (normalizeLicense d.license = gs "LGPL-2.1" ||
      normalizeLicense d.license = gs "LGPL-3.0")

/-- The normalized license of the dependency is MPL-2.0 (and hence classified
`WeakCopyleft`). -/
def isMPLDep (d : ADependency) : Bool :=
  categoryOf (normalizeLicense d.license) = some .weakCopyleft &&
    normalizeLicense d.license = gs "MPL-2.0"

theorem lookupCount_mapInc_self (m : List (GoStr × Nat)) (k : GoStr) :
    lookupCount (mapInc m k) k = lookupCount m k + 1 := by
  induction m with
  | nil => simp [mapInc, lookupCount]
  | cons e rest ih =>
    obtain ⟨k', v⟩ := e
    by_cases h : k' = k
    · simp [mapInc, lookupCount, h]
    · simp [mapInc, lookupCount, h, ih]

theorem lookupCount_mapInc_ne (m : List (GoStr × Nat)) (k k' : GoStr)
    (h : k' ≠ k) : lookupCount (mapInc m k) k' = lookupCount m k' := by
  have h' : ¬(k = k') := fun hh => h hh.symm
  induction m with
  | nil => simp [mapInc, lookupCount, h']
  | cons e rest ih =>
    obtain ⟨k₀, v⟩ := e
    by_cases h0 : k₀ = k
    · subst h0
      simp [mapInc, lookupCount, h']
    · by_cases h1 : k₀ = k'
      · simp [mapInc, lookupCount, h0, h1, h]
      · simp [mapInc, lookupCount, h0, h1, ih]

theorem lookupCountOk_mapInc_self (m : List (GoStr × Nat)) (k : GoStr) :
    lookupCountOk (mapInc m k) k = some (lookupCount m k + 1) := by
  induction m with
  | nil => simp [mapInc, lookupCountOk, lookupCount]
  | cons e rest ih =>
    obtain ⟨k', v⟩ := e
    by_cases h : k' = k
    · simp [mapInc, lookupCountOk, lookupCount, h]
    · simp [mapInc, lookupCountOk, lookupCount, h, ih]

theorem lookupCountOk_mapInc_ne (m : List (GoStr × Nat)) (k k' : GoStr)
    (h : k' ≠ k) : lookupCountOk (mapInc m k) k' = lookupCountOk m k' := by
  have h' : ¬(k = k') := fun hh => h hh.symm
  induction m with
  | nil => simp [mapInc, lookupCountOk, h']
  | cons e rest ih =>
    obtain ⟨k₀, v⟩ := e
    by_cases h0 : k₀ = k
    · subst h0
      simp [mapInc, lookupCountOk, h']
    · by_cases h1 : k₀ = k'
      · simp [mapInc, lookupCountOk, h0, h1, h]
      · simp [mapInc, lookupCountOk, h0, h1, ih]

theorem sumValues_mapInc (m : List (GoStr × Nat)) (k : GoStr) :
    sumValues (mapInc m k) = sumValues m + 1 := by
  induction m with
  | nil => simp [mapInc, sumValues]
  | cons e rest ih =>
    obtain ⟨k', v⟩ := e
    by_cases h : k' = k
    · simp [mapInc, sumValues, h]
      omega
    · simp only [mapInc, if_neg h]
      simp only [sumValues, List.map_cons, List.sum_cons] at ih ⊢
      omega

/-- One loop iteration, written out field by field. -/
theorem analyzeStep_eq (st : ATallies) (d : ADependency) :
    analyzeStep st d =
      { licenseCounts := mapInc st.licenseCounts (normalizeLicense d.license)
        permissiveCount := st.permissiveCount + (if isPermissiveDep d then 1 else 0)
        weakCopyleftCount := st.weakCopyleftCount + (if isWeakCopyleftDep d then 1 else 0)
        strongCopyleftCount := st.strongCopyleftCount + (if isStrongCopyleftDep d then 1 else 0)
        unknownCount := st.unknownCount + (if isUnknownDep d then 1 else 0)
        lowConfidenceCount := st.lowConfidenceCount + (if isLowConfKnownDep d then 1 else 0)
        hasLGPL := st.hasLGPL || isLGPLDep d
        hasMPL := st.hasMPL || isMPLDep d } := by
  simp only [analyzeStep]
  cases h : lookupTable KnownLicenses (normalizeLicense d.license) with
  | none =>
    by_cases hu : normalizeLicense d.license = gs "Unknown"
    · rw [hu] at h
      simp [isPermissiveDep, isWeakCopyleftDep, isStrongCopyleftDep, isUnknownDep,
        isLowConfKnownDep, isLGPLDep, isMPLDep, categoryOf, h, hu]
    · simp [isPermissiveDep, isWeakCopyleftDep, isStrongCopyleftDep, isUnknownDep,
        isLowConfKnownDep, isLGPLDep, isMPLDep, categoryOf, h, hu]
  | some info =>
    cases hc : info.category with
    | weakCopyleft =>
      by_cases hm : normalizeLicense d.license = gs "MPL-2.0"
      · have hl : ¬(gs "MPL-2.0" = gs "LGPL-2.1" ∨ gs "MPL-2.0" = gs "LGPL-3.0") := by
          decide
        rw [hm] at h
        by_cases hconf : d.confidence < mkRat 1 2 <;>
          simp [isPermissiveDep, isWeakCopyleftDep, isStrongCopyleftDep, isUnknownDep,
            isLowConfKnownDep, isLGPLDep, isMPLDep, categoryOf, h, hc, hconf, hl, hm]
      · by_cases hl : (normalizeLicense d.license = gs "LGPL-2.1" ∨
          normalizeLicense d.license = gs "LGPL-3.0") <;>
        by_cases hconf : d.confidence < mkRat 1 2 <;>
          simp [isPermissiveDep, isWeakCopyleftDep, isStrongCopyleftDep, isUnknownDep,
            isLowConfKnownDep, isLGPLDep, isMPLDep, categoryOf, h, hc, hconf, hl, hm]
    | permissive =>
      by_cases hconf : d.confidence < mkRat 1 2 <;>
        simp [isPermissiveDep, isWeakCopyleftDep, isStrongCopyleftDep, isUnknownDep,
          isLowConfKnownDep, isLGPLDep, isMPLDep, categoryOf, h, hc, hconf]
    | strongCopyleft =>
      by_cases hconf : d.confidence < mkRat 1 2 <;>
        simp [isPermissiveDep, isWeakCopyleftDep, isStrongCopyleftDep, isUnknownDep,
          isLowConfKnownDep, isLGPLDep, isMPLDep, categoryOf, h, hc, hconf]
    | proprietary =>
      by_cases hconf : d.confidence < mkRat 1 2 <;>
        simp [isPermissiveDep, isWeakCopyleftDep, isStrongCopyleftDep, isUnknownDep,
          isLowConfKnownDep, isLGPLDep, isMPLDep, categoryOf, h, hc, hconf]
    | unknownCategory =>
      by_cases hconf : d.confidence < mkRat 1 2 <;>
        simp [isPermissiveDep, isWeakCopyleftDep, isStrongCopyleftDep, isUnknownDep,
          isLowConfKnownDep, isLGPLDep, isMPLDep, categoryOf, h, hc, hconf]

theorem analyzeLoop_strong (deps : List ADependency) (st : ATallies) :
    (analyzeLoop deps st).strongCopyleftCount =
      st.strongCopyleftCount + deps.countP isStrongCopyleftDep := by
  induction deps generalizing st with
  | nil => simp [analyzeLoop]
  | cons d rest ih =>
    simp only [analyzeLoop, ih, analyzeStep_eq, List.countP_cons]
    cases hd : isStrongCopyleftDep d <;> simp [hd] <;> omega

theorem analyzeLoop_weak (deps : List ADependency) (st : ATallies) :
    (analyzeLoop deps st).weakCopyleftCount =
      st.weakCopyleftCount + deps.countP isWeakCopyleftDep := by
  induction deps generalizing st with
  | nil => simp [analyzeLoop]
  | cons d rest ih =>
    simp only [analyzeLoop, ih, analyzeStep_eq, List.countP_cons]
    cases hd : isWeakCopyleftDep d <;> simp [hd] <;> omega

theorem analyzeLoop_unknown (deps : List ADependency) (st : ATallies) :
    (analyzeLoop deps st).unknownCount =
      st.unknownCount + deps.countP isUnknownDep := by
  induction deps generalizing st with
  | nil => simp [analyzeLoop]
  | cons d rest ih =>
    simp only [analyzeLoop, ih, analyzeStep_eq, List.countP_cons]
    cases hd : isUnknownDep d <;> simp [hd] <;> omega

theorem analyzeLoop_lowConf (deps : List ADependency) (st : ATallies) :
    (analyzeLoop deps st).lowConfidenceCount =
      st.lowConfidenceCount + deps.countP isLowConfKnownDep := by
  induction deps generalizing st with
  | nil => simp [analyzeLoop]
  | cons d rest ih =>
    simp only [analyzeLoop, ih, analyzeStep_eq, List.countP_cons]
    cases hd : isLowConfKnownDep d <;> simp [hd] <;> omega

theorem analyzeLoop_sumValues (deps : List ADependency) (st : ATallies) :
    sumValues (analyzeLoop deps st).licenseCounts =
      sumValues st.licenseCounts + deps.length := by
  induction deps generalizing st with
  | nil => simp [analyzeLoop]
  | cons d rest ih =>
    simp only [analyzeLoop, ih, analyzeStep_eq, sumValues_mapInc, List.length_cons]
    omega

theorem analyzeLoop_lookupCount (deps : List ADependency) (st : ATallies) (k : GoStr) :
    lookupCount (analyzeLoop deps st).licenseCounts k =
      lookupCount st.licenseCounts k + (norms deps).count k := by
  induction deps generalizing st with
  | nil => simp [analyzeLoop, norms]
  | cons d rest ih =>
    simp only [analyzeLoop, ih, analyzeStep_eq, norms, List.map_cons, List.count_cons]
    by_cases hk : normalizeLicense d.license = k
    · rw [hk, lookupCount_mapInc_self]
      simp [norms]
      omega
    · rw [lookupCount_mapInc_ne _ _ _ (fun hh => hk hh.symm)]
      simp [norms, hk]

theorem analyzeLoop_lookupCountOk (deps : List ADependency) (st : ATallies) (k : GoStr) :
    lookupCountOk (analyzeLoop deps st).licenseCounts k =
      if 0 < (norms deps).count k then
        some (lookupCount st.licenseCounts k + (norms deps).count k)
      else lookupCountOk st.licenseCounts k := by
  induction deps generalizing st with
  | nil => simp [analyzeLoop, norms]
  | cons d rest ih =>
    simp only [analyzeLoop, ih, analyzeStep_eq, norms, List.map_cons, List.count_cons]
    by_cases hk : normalizeLicense d.license = k
    · rw [hk, lookupCount_mapInc_self, lookupCountOk_mapInc_self]
      by_cases hrest : 0 < (norms rest).count k
      · have hrest' : ∃ a ∈ rest, normalizeLicense a.license = k := by
          simpa [norms] using hrest
        simp [norms, hrest']
        omega
      · have hzero : (norms rest).count k = 0 := by omega
        have hrest' : ¬∃ a ∈ rest, normalizeLicense a.license = k := by
          simpa [norms] using hrest
        simp only [norms] at hzero
        simp [norms, hrest', hzero]
    · rw [lookupCount_mapInc_ne _ _ _ (fun hh => hk hh.symm),
        lookupCountOk_mapInc_ne _ _ _ (fun hh => hk hh.symm)]
      simp [norms, hk]

theorem analyzeState_strong (deps : List ADependency) :
    (analyzeState deps).strongCopyleftCount = deps.countP isStrongCopyleftDep := by
  rw [analyzeState, analyzeLoop_strong]
  simp [initTallies]

theorem analyzeState_weak (deps : List ADependency) :
    (analyzeState deps).weakCopyleftCount = deps.countP isWeakCopyleftDep := by
  rw [analyzeState, analyzeLoop_weak]
  simp [initTallies]

theorem analyzeState_unknownCount (deps : List ADependency) :
    (analyzeState deps).unknownCount = deps.countP isUnknownDep := by
  rw [analyzeState, analyzeLoop_unknown]
  simp [initTallies]

theorem analyzeState_lowConf (deps : List ADependency) :
    (analyzeState deps).lowConfidenceCount = deps.countP isLowConfKnownDep := by
  rw [analyzeState, analyzeLoop_lowConf]
  simp [initTallies]

theorem analyzeState_lookupCount (deps : List ADependency) (k : GoStr) :
    lookupCount (analyzeState deps).licenseCounts k = (norms deps).count k := by
  rw [analyzeState, analyzeLoop_lookupCount]
  simp [initTallies, lookupCount]

theorem analyzeState_lookupCountOk (deps : List ADependency) (k : GoStr) :
    lookupCountOk (analyzeState deps).licenseCounts k =
      if 0 < (norms deps).count k then some ((norms deps).count k) else none := by
  rw [analyzeState, analyzeLoop_lookupCountOk]
  simp [initTallies, lookupCount, lookupCountOk]

/-- The substring-based analyzer normalization can never output the
table key "Apache 2.0": any string whose trimmed form is "Apache 2.0"
takes the `apache` branch and comes out as "Apache-2.0". -/
theorem normalizeLicense_ne_apacheSpace (x : GoStr) :
    normalizeLicense x ≠ gs "Apache 2.0" := by
  simp only [normalizeLicense]
  repeat' split
  · decide
  · decide
  · decide
  · decide
  · decide
  · decide
  · intro heq
    rename_i h1 _ _ _ _ _
    rw [heq] at h1
    exact h1 (by decide)

theorem count_norms_apacheSpace (deps : List ADependency) :
    (norms deps).count (gs "Apache 2.0") = 0 := by
  rw [List.count_eq_zero]
  simp only [norms, List.mem_map, not_exists]
  intro d
  simp only [not_and]
  exact fun _ => normalizeLicense_ne_apacheSpace d.license

theorem detectConflicts_eq (m : List (GoStr × Nat)) :
    detectConflicts m =
      (if 0 < lookupCount m (gs "AGPL-3.0") then [agplConflictMessage] else []) ++
      (if 0 < lookupCount m (gs "GPL-2.0") ∧
          (0 < lookupCount m (gs "Apache-2.0") ∨ 0 < lookupCount m (gs "Apache 2.0")) then
        [gplApacheConflictMessage] else []) ++
      (if 0 < lookupCount m (gs "GPL-2.0") ∧ 0 < lookupCount m (gs "GPL-3.0") then
        [gplVersionConflictMessage] else []) := by
  simp only [detectConflicts]
  by_cases h2 : 0 < lookupCount m (gs "GPL-2.0") <;>
  by_cases h3 : 0 < lookupCount m (gs "GPL-3.0") <;>
  by_cases ha : 0 < lookupCount m (gs "AGPL-3.0") <;>
  by_cases hap : 0 < lookupCount m (gs "Apache-2.0") <;>
  by_cases hap2 : 0 < lookupCount m (gs "Apache 2.0") <;>
    simp [h2, h3, ha, hap, hap2]

/-- The conflict list of `Analyze`, expressed over the multiset of
normalized input licenses (the "Apache 2.0" map key is unreachable after
normalization, see `normalizeLicense_ne_apacheSpace`). -/
theorem analyze_conflicts_eq (deps : List ADependency) :
    (Analyze deps).conflicts =
      (if 0 < (norms deps).count (gs "AGPL-3.0") then [agplConflictMessage] else []) ++
      (if 0 < (norms deps).count (gs "GPL-2.0") ∧ 0 < (norms deps).count (gs "Apache-2.0") then
        [gplApacheConflictMessage] else []) ++
      (if 0 < (norms deps).count (gs "GPL-2.0") ∧ 0 < (norms deps).count (gs "GPL-3.0") then
        [gplVersionConflictMessage] else []) := by
  show detectConflicts (analyzeState deps).licenseCounts = _
  rw [detectConflicts_eq]
  simp only [analyzeState_lookupCount]
  rw [count_norms_apacheSpace deps]
  simp

theorem generateRecommendations_allClear (p : Nat) (lg mp : Bool) :
    generateRecommendations p 0 0 0 0 false lg mp = [allClearMessage] := by
  simp [generateRecommendations]

theorem isPermissiveDep_norm_ne (d : ADependency) (k : GoStr)
    (h : isPermissiveDep d = true) (hk : categoryOf k ≠ some .permissive) :
    normalizeLicense d.license ≠ k := by
  have h' : categoryOf (normalizeLicense d.license) = some .permissive := by
    simpa [isPermissiveDep] using h
  intro he
  rw [he] at h'
  exact hk h'

theorem count_norms_zero_of_permissive (deps : List ADependency) (k : GoStr)
    (hp : ∀ d ∈ deps, isPermissiveDep d = true)
    (hk : categoryOf k ≠ some .permissive) : (norms deps).count k = 0 := by
  rw [List.count_eq_zero]
  simp only [norms, List.mem_map, not_exists]
  intro d
  simp only [not_and]
  exact fun hd => isPermissiveDep_norm_ne d k (hp d hd) hk

/- =======================  claim theorems: analyzer  ======================= -/

/-- C10: `Analyze` increments exactly one `licenseCounts` bucket per
dependency, so the values of the returned counts map sum to the length of
the input list. -/
theorem claim_C10_licenseCounts_sum (deps : List ADependency) :
    sumValues (Analyze deps).licenseCounts = deps.length := by
  show sumValues (analyzeState deps).licenseCounts = deps.length
  rw [analyzeState, analyzeLoop_sumValues]
  simp [initTallies, sumValues]

/-- C5: the conflicts list of `Analyze` is exactly the concatenation, in
fixed order, of the AGPL network-use warning (when AGPL-3.0 is present),
the GPL-2.0/Apache-2.0 incompatibility warning (when both are present) and
the GPL-2.0/GPL-3.0 "or later" warning (when both are present); the three
messages contain the quoted phrases. -/
theorem claim_C5_conflicts (deps : List ADependency) :
    ((Analyze deps).conflicts =
      (if 0 < (norms deps).count (gs "AGPL-3.0") then [agplConflictMessage] else []) ++
      (if 0 < (norms deps).count (gs "GPL-2.0") ∧ 0 < (norms deps).count (gs "Apache-2.0") then
        [gplApacheConflictMessage] else []) ++
      (if 0 < (norms deps).count (gs "GPL-2.0") ∧ 0 < (norms deps).count (gs "GPL-3.0") then
        [gplVersionConflictMessage] else [])) ∧
    containsSub agplConflictMessage (gs "network use") = true ∧
    containsSub gplApacheConflictMessage (gs "GPL-2.0 and Apache-2.0") = true ∧
    containsSub gplVersionConflictMessage (gs "or later") = true :=
  ⟨analyze_conflicts_eq deps, by decide, by decide, by decide⟩

/-- C4 (amended): the unknown tally fed into the risk calculation counts
the entries whose normalized license is absent from the category table and
different from "Unknown" only as long as no entry normalizes to "Unknown";
as soon as the "Unknown" key exists in `licenseCounts`, the tally is
overwritten by that bucket's count. -/
theorem claim_C4_unknown_tally (deps : List ADependency) :
    unknownCountUsed deps =
      if 0 < (norms deps).count (gs "Unknown") then (norms deps).count (gs "Unknown")
      else deps.countP isUnknownDep := by
  rw [unknownCountUsed, analyzeState_lookupCountOk]
  by_cases h : 0 < (norms deps).count (gs "Unknown") <;>
    simp [h, analyzeState_unknownCount]

/-- C4 counterexample: with one "Unknown"-licensed entry and two entries
whose licenses are absent from the table, the tally used for risk is 1
(the "Unknown" bucket), not the 2 entries the claim describes. -/
theorem claim_C4_counterexample :
    unknownCountUsed
        [⟨gs "a", gs "1", gs "WTFPL", 1⟩, ⟨gs "b", gs "1", gs "Foo", 1⟩,
          ⟨gs "c", gs "1", gs "Unknown", 1⟩] = 1 ∧
      List.countP isUnknownDep
        [⟨gs "a", gs "1", gs "WTFPL", 1⟩, ⟨gs "b", gs "1", gs "Foo", 1⟩,
          ⟨gs "c", gs "1", gs "Unknown", 1⟩] = 2 :=
  ⟨by decide, by decide⟩

/-- C8 (amended): the low-confidence tally counts exactly the entries
whose normalized license is present in the category table and whose
confidence is below 0.5; entries with unrecognized licenses are skipped by
the `continue` before the confidence check. -/
theorem claim_C8_lowconf_tally (deps : List ADependency) :
    (analyzeState deps).lowConfidenceCount = deps.countP isLowConfKnownDep :=
  analyzeState_lowConf deps

/-- C8 counterexample: a single dependency with confidence 0.1 and an
unrecognized license is not counted as low-confidence, though the claim
says every entry with confidence below 0.5 is. -/
theorem claim_C8_counterexample :
    (analyzeState [⟨gs "pkg", gs "1.0", gs "WTFPL", mkRat 1 10⟩]).lowConfidenceCount = 0 ∧
      List.countP (fun d => d.confidence < mkRat 1 2)
        [(⟨gs "pkg", gs "1.0", gs "WTFPL", mkRat 1 10⟩ : ADependency)] = 1 :=
  ⟨by decide, by decide⟩

/-- C1 (amended): `Analyze` classifies risk by the exact documented
thresholds, and an all-permissive input list in which every entry has
confidence at least 0.5 yields risk "low" with the all-clear message as
the sole recommendation. -/
theorem claim_C1_risk_level (deps : List ADependency) :
    ((Analyze deps).riskLevel =
      if 0 < deps.countP isStrongCopyleftDep ∨ 5 < unknownCountUsed deps then gs "high"
      else if 0 < deps.countP isWeakCopyleftDep ∨ 0 < unknownCountUsed deps ∨
          3 < deps.countP isLowConfKnownDep then gs "medium"
      else gs "low") ∧
    ((∀ d ∈ deps, isPermissiveDep d = true ∧ mkRat 1 2 ≤ d.confidence) →
      (Analyze deps).riskLevel = gs "low" ∧
        (Analyze deps).recommendations = [allClearMessage]) := by
  have hrisk : (Analyze deps).riskLevel =
      if 0 < deps.countP isStrongCopyleftDep ∨ 5 < unknownCountUsed deps then gs "high"
      else if 0 < deps.countP isWeakCopyleftDep ∨ 0 < unknownCountUsed deps ∨
          3 < deps.countP isLowConfKnownDep then gs "medium"
      else gs "low" := by
    show calculateRiskLevel (analyzeState deps).strongCopyleftCount
      (analyzeState deps).weakCopyleftCount (unknownCountUsed deps)
      (analyzeState deps).lowConfidenceCount = _
    rw [analyzeState_strong, analyzeState_weak, analyzeState_lowConf]
    simp only [calculateRiskLevel, Bool.or_eq_true, decide_eq_true_eq, gt_iff_lt, or_assoc]
  refine ⟨hrisk, fun hp => ?_⟩
  have hs0 : deps.countP isStrongCopyleftDep = 0 := by
    rw [List.countP_eq_zero]
    intro d hd
    have := (hp d hd).1
    simp [isPermissiveDep] at this
    simp [isStrongCopyleftDep, this]
  have hw0 : deps.countP isWeakCopyleftDep = 0 := by
    rw [List.countP_eq_zero]
    intro d hd
    have := (hp d hd).1
    simp [isPermissiveDep] at this
    simp [isWeakCopyleftDep, this]
  have hl0 : deps.countP isLowConfKnownDep = 0 := by
    rw [List.countP_eq_zero]
    intro d hd
    have := (hp d hd).2
    simp [isLowConfKnownDep, not_lt.mpr this]
  have hcu : (norms deps).count (gs "Unknown") = 0 :=
    count_norms_zero_of_permissive deps _ (fun d hd => (hp d hd).1) (by decide)
  have hu0 : unknownCountUsed deps = 0 := by
    rw [unknownCountUsed, analyzeState_lookupCountOk, hcu]
    simp [analyzeState_unknownCount]
    intro d hd
    have := (hp d hd).1
    simp [isPermissiveDep, categoryOf] at this
    obtain ⟨a, ha, -⟩ := this
    simp [isUnknownDep, ha]
  have hconf : (Analyze deps).conflicts = [] := by
    rw [analyze_conflicts_eq]
    rw [count_norms_zero_of_permissive deps (gs "AGPL-3.0") (fun d hd => (hp d hd).1) (by decide),
      count_norms_zero_of_permissive deps (gs "GPL-2.0") (fun d hd => (hp d hd).1) (by decide)]
    simp
  constructor
  · rw [hrisk, hs0, hw0, hl0, hu0]
    simp
  · show generateRecommendations (analyzeState deps).permissiveCount
      (analyzeState deps).weakCopyleftCount (analyzeState deps).strongCopyleftCount
      (unknownCountUsed deps) (analyzeState deps).lowConfidenceCount
      ((Analyze deps).conflicts.length > 0) (analyzeState deps).hasLGPL
      (analyzeState deps).hasMPL = [allClearMessage]
    rw [hconf, analyzeState_strong, analyzeState_weak, analyzeState_lowConf, hs0, hw0, hl0, hu0]
    simpa using generateRecommendations_allClear (analyzeState deps).permissiveCount
      (analyzeState deps).hasLGPL (analyzeState deps).hasMPL

/-- C1 witness: a concrete all-permissive, full-confidence list. -/
theorem claim_C1_witness :
    (Analyze [⟨gs "react", gs "18.2.0", gs "MIT", 1⟩]).riskLevel = gs "low" ∧
      (Analyze [⟨gs "react", gs "18.2.0", gs "MIT", 1⟩]).recommendations = [allClearMessage] :=
  (claim_C1_risk_level [⟨gs "react", gs "18.2.0", gs "MIT", 1⟩]).2 (by decide)

/-- C1 counterexample: one MIT dependency with confidence 0.4 is
all-permissive, yet the sole recommendation is the low-confidence warning,
not the all-clear message. -/
theorem claim_C1_counterexample :
    List.all [(⟨gs "a", gs "1", gs "MIT", mkRat 2 5⟩ : ADependency)] isPermissiveDep = true ∧
      (Analyze [⟨gs "a", gs "1", gs "MIT", mkRat 2 5⟩]).riskLevel = gs "low" ∧
      (Analyze [⟨gs "a", gs "1", gs "MIT", mkRat 2 5⟩]).recommendations ≠ [allClearMessage] :=
  ⟨by decide, by decide, by decide⟩

/- ==================  normalization idempotence (C7)  ================== -/

theorem trimSpace_eq_rdropWhile (s : GoStr) :
    trimSpace s = List.rdropWhile goIsSpace (s.dropWhile goIsSpace) := rfl

theorem dropWhile_trimSpace (s : GoStr) :
    (trimSpace s).dropWhile goIsSpace = trimSpace s := by
  rw [trimSpace_eq_rdropWhile, List.dropWhile_eq_self_iff]
  intro hl
  have hpre : List.rdropWhile goIsSpace (s.dropWhile goIsSpace) <+: s.dropWhile goIsSpace :=
    List.rdropWhile_prefix _ _
  have h0 : 0 < (s.dropWhile goIsSpace).length := lt_of_lt_of_le hl hpre.length_le
  have hhead := List.dropWhile_get_zero_not goIsSpace s h0
  have hg := hpre.getElem hl
  simp only [List.get_eq_getElem] at hhead ⊢
  rw [hg]
  exact hhead

theorem rdropWhile_trimSpace (s : GoStr) :
    List.rdropWhile goIsSpace (trimSpace s) = trimSpace s := by
  rw [trimSpace_eq_rdropWhile, List.rdropWhile_idempotent]

theorem trimSpace_trimSpace (s : GoStr) : trimSpace (trimSpace s) = trimSpace s := by
  conv_lhs => rw [trimSpace_eq_rdropWhile, dropWhile_trimSpace]
  exact rdropWhile_trimSpace s

theorem trimSpace_eq_self (l : GoStr) (h1 : l.dropWhile goIsSpace = l)
    (h2 : List.rdropWhile goIsSpace l = l) : trimSpace l = l := by
  rw [trimSpace_eq_rdropWhile, h1, h2]

theorem rdropWhile_eq_self_of (l : GoStr)
    (h : l.reverse.dropWhile goIsSpace = l.reverse) :
    List.rdropWhile goIsSpace l = l := by
  rw [List.rdropWhile, h, List.reverse_reverse]

theorem dropWhile_replaceSpaceDash (l : GoStr) (h : l.dropWhile goIsSpace = l) :
    (replaceSpaceDash l).dropWhile goIsSpace = replaceSpaceDash l := by
  cases l with
  | nil => rfl
  | cons c cs =>
    rw [List.dropWhile_cons] at h
    by_cases hpc : goIsSpace c
    · exfalso
      rw [if_pos hpc] at h
      have hlen := congrArg List.length h
      simp at hlen
      have hsuf : cs.dropWhile goIsSpace <:+ cs := List.dropWhile_suffix _
      have hle := hsuf.length_le
      omega
    · have hc : c ≠ ' ' := by
        intro he
        rw [he] at hpc
        exact hpc (by decide)
      simp [replaceSpaceDash, List.dropWhile_cons, hpc, hc]

theorem replaceSpaceDash_reverse (l : GoStr) :
    (replaceSpaceDash l).reverse = replaceSpaceDash l.reverse := by
  simp [replaceSpaceDash, List.map_reverse]

theorem trimSpace_replace_trim (s : GoStr) :
    trimSpace (replaceSpaceDash (trimSpace s)) = replaceSpaceDash (trimSpace s) := by
  apply trimSpace_eq_self
  · exact dropWhile_replaceSpaceDash _ (dropWhile_trimSpace s)
  · apply rdropWhile_eq_self_of
    rw [replaceSpaceDash_reverse]
    apply dropWhile_replaceSpaceDash
    have h2 := rdropWhile_trimSpace s
    rw [List.rdropWhile] at h2
    have h3 := congrArg List.reverse h2
    simpa using h3

theorem replaceSpaceDash_idem (l : GoStr) :
    replaceSpaceDash (replaceSpaceDash l) = replaceSpaceDash l := by
  simp only [replaceSpaceDash, List.map_map]
  apply List.map_congr_left
  intro a _
  by_cases ha : a = ' ' <;> simp [ha, Function.comp]

theorem replaceSpaceDash_isEmpty (l : GoStr) :
    (replaceSpaceDash l).isEmpty = l.isEmpty := by
  cases l <;> rfl

theorem normalizeLicense_cases (x : GoStr) :
    normalizeLicense x = gs "Apache-2.0" ∨ normalizeLicense x = gs "AGPL-3.0" ∨
    normalizeLicense x = gs "LGPL-3.0" ∨ normalizeLicense x = gs "LGPL-2.1" ∨
    normalizeLicense x = gs "GPL-3.0" ∨ normalizeLicense x = gs "GPL-2.0" ∨
    (normalizeLicense x = trimSpace x ∧
      containsSub (toLowerStr (trimSpace x)) (gs "apache") = false ∧
      containsSub (toLowerStr (trimSpace x)) (gs "agpl") = false ∧
      (containsSub (toLowerStr (trimSpace x)) (gs "lgpl") &&
        containsSub (toLowerStr (trimSpace x)) (gs "3")) = false ∧
      (containsSub (toLowerStr (trimSpace x)) (gs "lgpl") &&
        containsSub (toLowerStr (trimSpace x)) (gs "2")) = false ∧
      (containsSub (toLowerStr (trimSpace x)) (gs "gpl") &&
        containsSub (toLowerStr (trimSpace x)) (gs "3")) = false ∧
      (containsSub (toLowerStr (trimSpace x)) (gs "gpl") &&
        containsSub (toLowerStr (trimSpace x)) (gs "2")) = false) := by
  simp only [normalizeLicense]
  repeat' split <;> simp_all

theorem normalizeLicense_idem (x : GoStr) :
    normalizeLicense (normalizeLicense x) = normalizeLicense x := by
  rcases normalizeLicense_cases x with h | h | h | h | h | h | ⟨he, h1, h2, h3, h4, h5, h6⟩
  · rw [h]; decide
  · rw [h]; decide
  · rw [h]; decide
  · rw [h]; decide
  · rw [h]; decide
  · rw [h]; decide
  · rw [he]
    simp only [normalizeLicense, trimSpace_trimSpace, h1, h2, h3, h4, h5, h6]
    simp

theorem normalizedLicense_cases (x : GoStr) :
    normalizedLicense x = [] ∨ normalizedLicense x = gs "MIT" ∨
    normalizedLicense x = gs "Apache-2.0" ∨ normalizedLicense x = gs "GPL-3.0" ∨
    normalizedLicense x = gs "GPL-2.0" ∨ normalizedLicense x = gs "BSD-3-Clause" ∨
    normalizedLicense x = gs "BSD-2-Clause" ∨ normalizedLicense x = gs "ISC" ∨
    (normalizedLicense x = replaceSpaceDash (trimSpace x) ∧
      (trimSpace x).isEmpty = false ∧
      ¬(toLowerStr (replaceSpaceDash (trimSpace x)) = gs "mit") ∧
      ¬(toLowerStr (replaceSpaceDash (trimSpace x)) = gs "apache-2.0" ∨
        toLowerStr (replaceSpaceDash (trimSpace x)) = gs "apache2" ∨
        toLowerStr (replaceSpaceDash (trimSpace x)) = gs "apache-v2") ∧
      ¬(toLowerStr (replaceSpaceDash (trimSpace x)) = gs "gpl-3.0" ∨
        toLowerStr (replaceSpaceDash (trimSpace x)) = gs "gplv3" ∨
        toLowerStr (replaceSpaceDash (trimSpace x)) = gs "gpl3") ∧
      ¬(toLowerStr (replaceSpaceDash (trimSpace x)) = gs "gpl-2.0" ∨
        toLowerStr (replaceSpaceDash (trimSpace x)) = gs "gplv2" ∨
        toLowerStr (replaceSpaceDash (trimSpace x)) = gs "gpl2") ∧
      ¬(toLowerStr (replaceSpaceDash (trimSpace x)) = gs "bsd-3-clause" ∨
        toLowerStr (replaceSpaceDash (trimSpace x)) = gs "bsd3") ∧
      ¬(toLowerStr (replaceSpaceDash (trimSpace x)) = gs "bsd-2-clause" ∨
        toLowerStr (replaceSpaceDash (trimSpace x)) = gs "bsd2") ∧
      ¬(toLowerStr (replaceSpaceDash (trimSpace x)) = gs "isc")) := by
  by_cases he : (trimSpace x).isEmpty = true
  · refine Or.inl ?_
    simp only [normalizedLicense]
    simp [he]
  by_cases h1 : toLowerStr (replaceSpaceDash (trimSpace x)) = gs "mit"
  · refine Or.inr (Or.inl ?_)
    simp only [normalizedLicense]
    simp [he, h1] <;> decide
  by_cases h2 : (toLowerStr (replaceSpaceDash (trimSpace x)) = gs "apache-2.0" ∨
      toLowerStr (replaceSpaceDash (trimSpace x)) = gs "apache2" ∨
      toLowerStr (replaceSpaceDash (trimSpace x)) = gs "apache-v2")
  · refine Or.inr (Or.inr (Or.inl ?_))
    simp only [normalizedLicense]
    simp [he, h1, h2] <;> decide
  by_cases h3 : (toLowerStr (replaceSpaceDash (trimSpace x)) = gs "gpl-3.0" ∨
      toLowerStr (replaceSpaceDash (trimSpace x)) = gs "gplv3" ∨
      toLowerStr (replaceSpaceDash (trimSpace x)) = gs "gpl3")
  · refine Or.inr (Or.inr (Or.inr (Or.inl ?_)))
    simp only [normalizedLicense]
    simp [he, h1, h2, h3] <;> decide
  by_cases h4 : (toLowerStr (replaceSpaceDash (trimSpace x)) = gs "gpl-2.0" ∨
      toLowerStr (replaceSpaceDash (trimSpace x)) = gs "gplv2" ∨
      toLowerStr (replaceSpaceDash (trimSpace x)) = gs "gpl2")
  · refine Or.inr (Or.inr (Or.inr (Or.inr (Or.inl ?_))))
    simp only [normalizedLicense]
    simp [he, h1, h2, h3, h4] <;> decide
  by_cases h5 : (toLowerStr (replaceSpaceDash (trimSpace x)) = gs "bsd-3-clause" ∨
      toLowerStr (replaceSpaceDash (trimSpace x)) = gs "bsd3")
  · refine Or.inr (Or.inr (Or.inr (Or.inr (Or.inr (Or.inl ?_)))))
    simp only [normalizedLicense]
    simp [he, h1, h2, h3, h4, h5] <;> decide
  by_cases h6 : (toLowerStr (replaceSpaceDash (trimSpace x)) = gs "bsd-2-clause" ∨
      toLowerStr (replaceSpaceDash (trimSpace x)) = gs "bsd2")
  · refine Or.inr (Or.inr (Or.inr (Or.inr (Or.inr (Or.inr (Or.inl ?_))))))
    simp only [normalizedLicense]
    simp [he, h1, h2, h3, h4, h5, h6] <;> decide
  by_cases h7 : toLowerStr (replaceSpaceDash (trimSpace x)) = gs "isc"
  · refine Or.inr (Or.inr (Or.inr (Or.inr (Or.inr (Or.inr (Or.inr (Or.inl ?_)))))))
    simp only [normalizedLicense]
    simp [he, h1, h2, h3, h4, h5, h6, h7] <;> decide
  refine Or.inr (Or.inr (Or.inr (Or.inr (Or.inr (Or.inr (Or.inr (Or.inr
    ⟨?_, by simpa using he, h1, h2, h3, h4, h5, h6, h7⟩)))))))
  simp only [normalizedLicense]
  simp [he, h1, h2, h3, h4, h5, h6, h7]

theorem normalizedLicense_idem (x : GoStr) :
    normalizedLicense (normalizedLicense x) = normalizedLicense x := by
  rcases normalizedLicense_cases x with
    h | h | h | h | h | h | h | h | ⟨he, hne, h1, h2, h3, h4, h5, h6, h7⟩
  · rw [h]; decide
  · rw [h]; decide
  · rw [h]; decide
  · rw [h]; decide
  · rw [h]; decide
  · rw [h]; decide
  · rw [h]; decide
  · rw [h]; decide
  · rw [he]
    have ht := trimSpace_replace_trim x
    have hr := replaceSpaceDash_idem (trimSpace x)
    have hem : (replaceSpaceDash (trimSpace x)).isEmpty = false := by
      rw [replaceSpaceDash_isEmpty]; exact hne
    simp only [normalizedLicense, ht, hem, hr, h1, h2, h3, h4, h5, h6, h7]
    simp

/-- C7: both license normalizations are idempotent: the analyzer's
substring classifier `normalizeLicense` and the detector's synonym-table
`normalizedLicense`. -/
theorem claim_C7_normalization_idempotent (x : GoStr) :
    normalizeLicense (normalizeLicense x) = normalizeLicense x ∧
      normalizedLicense (normalizedLicense x) = normalizedLicense x :=
  ⟨normalizeLicense_idem x, normalizedLicense_idem x⟩

/- ==============  claim theorems: parser and detector  ============== -/

/-- C2: lock-file detection is order-dependent because the candidate
table is a Go map ranged over in unspecified order: with both
package-lock.json and yarn.lock present, the key order starting at
package-lock.json returns npm while the (equally admissible) key order
starting at yarn.lock returns yarn; with no lock file present every
iteration order returns NotFound. -/
theorem claim_C2_lockfile_detection :
    List.Perm [gs "yarn.lock", gs "package-lock.json", gs "pnpm-lock.yaml"]
      (lockFiles.map Prod.fst) ∧
    DetectLockFile (lockFiles.map Prod.fst) bothLockFS (gs "/test") =
      some (gs "/test/package-lock.json", gs "npm") ∧
    DetectLockFile [gs "yarn.lock", gs "package-lock.json", gs "pnpm-lock.yaml"]
      bothLockFS (gs "/test") = some (gs "/test/yarn.lock", gs "yarn") ∧
    some (gs "/test/yarn.lock", gs "yarn") ≠
      (some (gs "/test/package-lock.json", gs "npm") : Option (GoStr × GoStr)) ∧
    (∀ order : List GoStr, DetectLockFile order (fun _ => false) (gs "/test") = none) := by
  refine ⟨by decide, by decide, by decide, by decide, ?_⟩
  intro order
  induction order with
  | nil => rfl
  | cons f rest ih => simpa [DetectLockFile] using ih

/-- C9: a packages key that does not start with "node_modules/" yields
the empty extracted name, and the packages-section loop of the NPM parse
emits no Dependency for it. -/
theorem claim_C9_non_node_modules_skipped (key : GoStr)
    (h : (gs "node_modules/").isPrefixOf key = false) :
    extractPackageName key = [] ∧
      ∀ (pre post : List (GoStr × NPMPackage)) (pkg : NPMPackage),
        parsePackagesSection (pre ++ (key, pkg) :: post) =
          parsePackagesSection (pre ++ post) := by
  have he : extractPackageName key = [] := by
    rw [extractPackageName, if_neg]
    simp [h]
  refine ⟨he, ?_⟩
  intro pre post pkg
  induction pre with
  | nil =>
    simp only [List.nil_append, parsePackagesSection]
    by_cases hk : key = []
    · simp [hk]
    · simp [hk, he]
  | cons e rest ih =>
    obtain ⟨p0, pk0⟩ := e
    simp only [List.cons_append, parsePackagesSection, List.append_eq, ih]

/-- C9 witness: a workspace-style key "packages/foo" between a root key
and a real node_modules key is skipped. -/
theorem claim_C9_witness :
    (gs "node_modules/").isPrefixOf (gs "packages/foo") = false ∧
      extractPackageName (gs "packages/foo") = [] ∧
      parsePackagesSection
          [(gs "", ⟨gs "1.0.0", gs "MIT"⟩), (gs "packages/foo", ⟨gs "2.0.0", gs "MIT"⟩),
            (gs "node_modules/lodash", ⟨gs "4.17.21", gs "MIT"⟩)] =
        parsePackagesSection
          [(gs "", ⟨gs "1.0.0", gs "MIT"⟩),
            (gs "node_modules/lodash", ⟨gs "4.17.21", gs "MIT"⟩)] := by
  have h := claim_C9_non_node_modules_skipped (gs "packages/foo") (by decide)
  exact ⟨by decide, h.1,
    h.2 [(gs "", ⟨gs "1.0.0", gs "MIT"⟩)]
      [(gs "node_modules/lodash", ⟨gs "4.17.21", gs "MIT"⟩)] ⟨gs "2.0.0", gs "MIT"⟩⟩

/-- C3: the pattern table is a Go map ranged over in unspecified order,
so the first matching pattern is order-dependent: on a LICENSE text
matching both the MIT and the ISC pattern, the key order of the source
listing returns MIT/0.9 while the (equally admissible) ISC-first order
returns ISC/0.8; on a text matching no pattern both orders return
Unknown/0.2, and through `detectFromLicenseFile` the source tag is
"LICENSE file". -/
theorem claim_C3_pattern_table :
    List.Perm iscFirstPatternOrder sourcePatternOrder ∧
    sourcePatternOrder = [gs "MIT", gs "Apache-2.0", gs "GPL-3.0", gs "GPL-2.0",
      gs "BSD-3-Clause", gs "BSD-2-Clause", gs "ISC"] ∧
    analyzeLicenseFile sourcePatternOrder (fun _ => some mitIscContent)
      (gs "/pkg/LICENSE") = (gs "MIT", mkRat 9 10) ∧
    analyzeLicenseFile iscFirstPatternOrder (fun _ => some mitIscContent)
      (gs "/pkg/LICENSE") = (gs "ISC", mkRat 4 5) ∧
    (gs "ISC", mkRat 4 5) ≠ ((gs "MIT", mkRat 9 10) : GoStr × ℚ) ∧
    analyzeLicenseFile sourcePatternOrder (fun _ => some (gs "some totally custom text"))
      (gs "/pkg/LICENSE") = (gs "Unknown", mkRat 1 5) ∧
    analyzeLicenseFile iscFirstPatternOrder (fun _ => some (gs "some totally custom text"))
      (gs "/pkg/LICENSE") = (gs "Unknown", mkRat 1 5) ∧
    detectFromLicenseFile unknownLicenseFS (gs "/pkg") =
      some ⟨gs "Unknown", mkRat 1 5, gs "LICENSE file"⟩ :=
  ⟨by decide, by decide, by decide, by decide, by decide, by decide, by decide, by decide⟩

/-- C6: `DetectLicense` returns a nil error on every path and every
filesystem, and when neither package.json nor any LICENSE variant yields
a license it returns Unknown/0.0/"not found". -/
theorem claim_C6_detect_never_errors (fs : DetectorFS) (packagePath : GoStr) :
    (DetectLicense fs packagePath).2 = none ∧
      (detectFromPackageJSON fs packagePath = none →
        detectFromLicenseFile fs packagePath = none →
        (DetectLicense fs packagePath).1 = ⟨gs "Unknown", 0, gs "not found"⟩) := by
  constructor
  · rcases h1 : detectFromPackageJSON fs packagePath with _ | i
    · rcases h2 : detectFromLicenseFile fs packagePath with _ | j <;>
        simp [DetectLicense, h1, h2]
    · simp [DetectLicense, h1]
  · intro h1 h2
    simp [DetectLicense, h1, h2]

/-- C6 witness: on a filesystem where every operation fails, detection
still succeeds with the Unknown/0.0/"not found" fallback. -/
theorem claim_C6_witness :
    (DetectLicense emptyDetectorFS (gs "/pkg")).2 = none ∧
      (DetectLicense emptyDetectorFS (gs "/pkg")).1 =
        ⟨gs "Unknown", 0, gs "not found"⟩ :=
  ⟨(claim_C6_detect_never_errors emptyDetectorFS (gs "/pkg")).1,
    (claim_C6_detect_never_errors emptyDetectorFS (gs "/pkg")).2 (by decide) (by decide)⟩

end LicenseScanner
